import Mathlib

/-!
Shallow embedding of the graba audio-recording server core:
the recording catalog (recordings index, creation, deletion, retention
sweep), the finalize/process endpoint (ffmpeg command construction,
rollback on failure), the byte-range streaming handler, and the
microphone preview effects chain.

Conventions of the embedding:
* ISO timestamp strings are modelled as integer milliseconds (the code
  round-trips them through Date.getTime, which is exactly this value).
* The filesystem is modelled explicitly: the recordings index file is a
  list of entries plus a flag saying whether reading/parsing it succeeds;
  recording directories are lists of names (for the catalog) or
  association lists from recording id to contained file names (for the
  process endpoint).
* Each external effect of the process endpoint (form parsing, file
  writes, ffmpeg invocations, index persistence) has a success flag in an
  environment record, so that every failure point of the code is a
  reachable branch of the model.
-/

/-! ## Data model (src/lib/server/recordings.ts) -/

inductive OutputFormat
  | mp3
  | aac
  | opus
deriving DecidableEq

/-- Recording retention period: 7 days in milliseconds. -/
def RETENTION_MS : Int := 7 * 24 * 60 * 60 * 1000

/-- The `tracks` field of a recording: role to filename, roles optional. -/
structure Tracks where
  mic : Option String
  system : Option String
  mixed : Option String
deriving DecidableEq

/-- One entry of the recordings index. Timestamps in milliseconds. -/
structure Recording where
  id : String
  createdAt : Int
  expiresAt : Int
  duration : Nat
  hasMic : Bool
  hasSystemAudio : Bool
  format : OutputFormat
  tracks : Tracks
deriving DecidableEq

/-- Argument record of `createRecording`. -/
structure CreateParams where
  id : String
  duration : Nat
  hasMic : Bool
  hasSystemAudio : Bool
  format : OutputFormat
  tracks : Tracks
deriving DecidableEq

/-- `createRecording`: stamp `createdAt` with the current time, derive
`expiresAt` from the same instant, append to the index.  Returns the
stored entry and the persisted index. -/
def createRecording (now : Int) (p : CreateParams) (index : List Recording) :
    Recording × List Recording :=
  let recording : Recording :=
    ⟨p.id, now, now + RETENTION_MS, p.duration, p.hasMic, p.hasSystemAudio, p.format, p.tracks⟩
  (recording, index ++ [recording])

/-- `getContentType`. -/
def getContentType : OutputFormat → String
  | OutputFormat.mp3 => "audio/mpeg"
  | OutputFormat.aac => "audio/mp4"
  | OutputFormat.opus => "audio/webm"

/-- `getFileExtension`. -/
def getFileExtension : OutputFormat → String
  | OutputFormat.mp3 => "mp3"
  | OutputFormat.aac => "m4a"
  | OutputFormat.opus => "webm"

/-- Format name as the string literal the code compares against. -/
def formatName : OutputFormat → String
  | OutputFormat.mp3 => "mp3"
  | OutputFormat.aac => "aac"
  | OutputFormat.opus => "opus"

/-- The extension chosen by `outputFormat === 'aac' ? 'm4a' : outputFormat`. -/
def extOf (fmt : OutputFormat) : String :=
  if fmt = OutputFormat.aac then "m4a" else formatName fmt

/-- `getRecordingDir` (path root `data/recordings` relative to cwd). -/
def getRecordingDir (id : String) : String :=
  "data/recordings/" ++ id

/-- `getTrackPath`. -/
def getTrackPath (id track : String) (fmt : OutputFormat) : String :=
  getRecordingDir id ++ "/" ++ track ++ "." ++ extOf fmt

/-! ## Catalog state and retention sweep -/

/-- On-disk state seen by the catalog: the index file content, the set of
directory names under `data/recordings`, and whether reading and parsing
the index file currently succeeds. -/
structure CatalogState where
  index : List Recording
  dirs : List String
  indexLoadOk : Bool
deriving DecidableEq

/-- `loadRecordingsInternal`: parsed index plus the `loadedFromDisk` flag;
a read or parse failure degrades to the empty index. -/
def loadRecordingsInternal (s : CatalogState) : List Recording × Bool :=
  if s.indexLoadOk then (s.index, true) else ([], false)

/-- Index component of `deleteRecording`: `findIndex` + `splice(pos, 1)`,
i.e. remove the first entry with the given id, if any. -/
def deleteIndexStep (idx : List Recording) (i : String) : List Recording :=
  if idx.any (fun r => r.id == i) then idx.eraseP (fun r => r.id == i) else idx

/-- Directory component of `deleteRecording`: the recording directory is
removed (tolerantly) exactly when the entry was found in the index. -/
def deleteDirsStep (dirs : List String) (idx : List Recording) (i : String) : List String :=
  if idx.any (fun r => r.id == i) then dirs.erase i else dirs

/-- `deleteRecording`: remove the artifact directory, then the index
entry; report whether the entry existed. -/
def deleteRecording (s : CatalogState) (i : String) : CatalogState × Bool :=
  (⟨deleteIndexStep s.index i, deleteDirsStep s.dirs s.index i, s.indexLoadOk⟩,
   s.index.any (fun r => r.id == i))

/-- `cleanupExpiredRecordings`: load the index, collect entries whose
`expiresAt` is strictly before `now`, delete each, then — only if the
index file was actually loaded from disk — remove directories not
referenced by any current index id.  Returns the new state and the
reported cleanup count. -/
def cleanupExpiredRecordings (s : CatalogState) (now : Int) : CatalogState × Nat :=
  let load := loadRecordingsInternal s
  let toDelete := (load.1.filter (fun r => decide (r.expiresAt < now))).map (fun r => r.id)
  let s1 := toDelete.foldl (fun st i => (deleteRecording st i).1) s
  if load.2 then
    let indexedIds := s1.index.map (fun r => r.id)
    let orphans := s1.dirs.filter (fun d => !(indexedIds.contains d))
    (⟨s1.index, s1.dirs.filter (fun d => indexedIds.contains d), s1.indexLoadOk⟩,
     toDelete.length + orphans.length)
  else
    (s1, toDelete.length)

/-! ## Process endpoint (src/routes/api/process/+server.ts) -/

/-- `FORMAT_CODECS`. -/
def FORMAT_CODECS : OutputFormat → String
  | OutputFormat.mp3 => "libmp3lame -b:a 320k"
  | OutputFormat.aac => "aac -b:a 256k"
  | OutputFormat.opus => "libopus -b:a 256k"

/-- Temporary raw system-audio upload inside the recording dir. -/
def systemInputPath (id : String) : String :=
  getRecordingDir id ++ "/system_input.webm"

/-- Temporary raw microphone upload inside the recording dir. -/
def micInputPath (id : String) : String :=
  getRecordingDir id ++ "/mic_input.webm"

/-- The ffmpeg command encoding the standalone system track. -/
def systemEncodeCmd (id : String) (fmt : OutputFormat) : String :=
  "ffmpeg -i \"" ++ systemInputPath id ++ "\" -ac 2 -ar 48000 -c:a " ++
    FORMAT_CODECS fmt ++ " \"" ++ getTrackPath id "system" fmt ++ "\" -y"

/-- The ffmpeg command encoding the standalone mic track. -/
def micEncodeCmd (id : String) (fmt : OutputFormat) : String :=
  "ffmpeg -i \"" ++ micInputPath id ++ "\" -ac 2 -ar 48000 -c:a " ++
    FORMAT_CODECS fmt ++ " \"" ++ getTrackPath id "mic" fmt ++ "\" -y"

/-- The filter graph used for the mixed track when ducking is on: the mic
is split, one copy drives a sidechain compressor on the system signal,
and the ducked system is mixed with the other mic copy. -/
def duckFilterComplex : String :=
  String.intercalate ";"
    ["[1:a]asplit=2[sc][mic]",
     "[0:a][sc]sidechaincompress=threshold=0.02:ratio=4:attack=50:release=500[ducked]",
     "[ducked][mic]amix=inputs=2:duration=longest:weights=0.7 1[out]"]

/-- The filter graph used for the mixed track without ducking. -/
def plainMixFilterComplex : String :=
  "[0:a][1:a]amix=inputs=2:duration=longest:weights=0.7 1[out]"

/-- The ffmpeg command producing the mixed track from the two raw
uploads. -/
def mixedEncodeCmd (id : String) (fmt : OutputFormat) (duck : Bool) : String :=
  "ffmpeg -i \"" ++ systemInputPath id ++ "\" -i \"" ++ micInputPath id ++
    "\" -filter_complex \"" ++
    (if duck then duckFilterComplex else plainMixFilterComplex) ++
    "\" -map \"[out]\" -ac 2 -ar 48000 -c:a " ++ FORMAT_CODECS fmt ++
    " \"" ++ getTrackPath id "mixed" fmt ++ "\" -y"

/-- Parsed form-data content of one process request. -/
structure ProcessInput where
  systemAudio : Option (List Nat)
  micAudio : Option (List Nat)
  duckSystemAudio : Bool
  outputFormat : OutputFormat
  duration : Nat
deriving DecidableEq

/-- Success flags for each external effect the handler performs. -/
structure ProcEnv where
  formDataOk : Bool
  writeSystemOk : Bool
  writeMicOk : Bool
  encodeSystemOk : Bool
  encodeMicOk : Bool
  encodeMixedOk : Bool
  rmInputsOk : Bool
  createOk : Bool
deriving DecidableEq

/-- Server-side filesystem state for the process endpoint: persisted
index plus, per recording directory, the list of files it contains. -/
structure ServerState where
  index : List Recording
  dirs : List (String × List String)
deriving DecidableEq

/-- Errors surfaced by the handler: an http error response (as thrown by
SvelteKit `error(status, message)`) or a lower-level system failure. -/
inductive ApiError
  | http (status : Nat) (message : String)
  | sys (message : String)
deriving DecidableEq

/-- The JSON body returned on success. -/
structure ProcResp where
  id : String
  systemAudioUrl : Option String
  micAudioUrl : Option String
  mixedAudioUrl : Option String
deriving DecidableEq

/-- The ffmpeg invocations a run actually performed. -/
structure ProcTrace where
  systemCmd : Option String
  micCmd : Option String
  mixedCmd : Option String
deriving DecidableEq

def emptyTrace : ProcTrace := ⟨none, none, none⟩

/-- Full result of one handler run. -/
structure PostResult where
  res : Except ApiError ProcResp
  state : ServerState
  tr : ProcTrace

def exceptIsOk : Except ApiError ProcResp → Bool
  | Except.ok _ => true
  | Except.error _ => false

/-- `mkdir(recordingDir)`: a fresh empty recording directory appears. -/
def addRecordingDir (s : ServerState) (id : String) : ServerState :=
  ⟨s.index, (id, []) :: s.dirs⟩

/-- Add a file to the directory of the given recording id. -/
def addFileDirs (dirs : List (String × List String)) (id f : String) :
    List (String × List String) :=
  dirs.map (fun d => if d.1 == id then (d.1, d.2 ++ [f]) else d)

def addTrackFile (s : ServerState) (id f : String) : ServerState :=
  ⟨s.index, addFileDirs s.dirs id f⟩

/-- The two temporary uploads removed by `rm -f` after a successful render. -/
def inputFileNames : List String := ["system_input.webm", "mic_input.webm"]

def removeInputDirs (dirs : List (String × List String)) (id : String) :
    List (String × List String) :=
  dirs.map (fun d =>
    if d.1 == id then (d.1, d.2.filter (fun f => decide (¬ f ∈ inputFileNames))) else d)

def removeInputFiles (s : ServerState) (id : String) : ServerState :=
  ⟨s.index, removeInputDirs s.dirs id⟩

/-- `rm -rf recordingDir`: the whole directory disappears. -/
def removeDirDirs (dirs : List (String × List String)) (id : String) :
    List (String × List String) :=
  dirs.filter (fun d => !(d.1 == id))

def removeRecordingDir (s : ServerState) (id : String) : ServerState :=
  ⟨s.index, removeDirDirs s.dirs id⟩

/-- Input-file cleanup and catalog registration (lines 107-127 of the
handler). -/
def stageFinish (env : ProcEnv) (req : ProcessInput) (id : String) (now : Int)
    (s : ServerState) (tr : ProcTrace) : PostResult :=
  if env.rmInputsOk then
    let s1 := removeInputFiles s id
    if env.createOk then
      let tracks : Tracks :=
        ⟨(if req.micAudio.isSome then some ("mic." ++ extOf req.outputFormat) else none),
         some ("system." ++ extOf req.outputFormat),
         (if req.micAudio.isSome then some ("mixed." ++ extOf req.outputFormat) else none)⟩
      let created :=
        createRecording now ⟨id, req.duration, req.micAudio.isSome, true, req.outputFormat, tracks⟩
          s1.index
      let s2 : ServerState := ⟨created.2, s1.dirs⟩
      let baseUrl := "/api/recordings/" ++ id
      ⟨Except.ok
          ⟨id, some (baseUrl ++ "/system/download"),
           (if req.micAudio.isSome then some (baseUrl ++ "/mic/download") else none),
           (if req.micAudio.isSome then some (baseUrl ++ "/mixed/download") else none)⟩,
        s2, tr⟩
    else ⟨Except.error (ApiError.sys "failed to save recording index"), s1, tr⟩
  else ⟨Except.error (ApiError.sys "failed to remove input files"), s, tr⟩

/-- The encode stages (lines 64-105 of the handler): system track, then
if a mic upload is present the mic track and the mixed track. -/
def stageAfterWrites (env : ProcEnv) (req : ProcessInput) (id : String) (now : Int)
    (s : ServerState) : PostResult :=
  let fmt := req.outputFormat
  let tr1 : ProcTrace := ⟨some (systemEncodeCmd id fmt), none, none⟩
  if env.encodeSystemOk then
    let s1 := addTrackFile s id ("system." ++ extOf fmt)
    match req.micAudio with
    | some _ =>
      let tr2 : ProcTrace := ⟨tr1.systemCmd, some (micEncodeCmd id fmt), none⟩
      if env.encodeMicOk then
        let s2 := addTrackFile s1 id ("mic." ++ extOf fmt)
        let tr3 : ProcTrace :=
          ⟨tr2.systemCmd, tr2.micCmd, some (mixedEncodeCmd id fmt req.duckSystemAudio)⟩
        if env.encodeMixedOk then
          stageFinish env req id now (addTrackFile s2 id ("mixed." ++ extOf fmt)) tr3
        else ⟨Except.error (ApiError.sys "ffmpeg failed on mixed track"), s2, tr3⟩
      else ⟨Except.error (ApiError.sys "ffmpeg failed on mic track"), s1, tr2⟩
    | none => stageFinish env req id now s1 tr1
  else ⟨Except.error (ApiError.sys "ffmpeg failed on system track"), s, tr1⟩

/-- The body of the `try` block: parse the form, require a system upload,
write the raw uploads, then encode. -/
def processBody (env : ProcEnv) (req : ProcessInput) (id : String) (now : Int)
    (s : ServerState) : PostResult :=
  if env.formDataOk then
    match req.systemAudio with
    | none => ⟨Except.error (ApiError.http 400 "No system audio provided"), s, emptyTrace⟩
    | some _ =>
      if env.writeSystemOk then
        let s1 := addTrackFile s id "system_input.webm"
        match req.micAudio with
        | some _ =>
          if env.writeMicOk then
            stageAfterWrites env req id now (addTrackFile s1 id "mic_input.webm")
          else ⟨Except.error (ApiError.sys "failed to write mic input"), s1, emptyTrace⟩
        | none => stageAfterWrites env req id now s1
      else ⟨Except.error (ApiError.sys "failed to write system input"), s, emptyTrace⟩
  else ⟨Except.error (ApiError.sys "failed to parse form data"), s, emptyTrace⟩

/-- The catch block maps non-http failures to a generic 500 response. -/
def errorToResponse : ApiError → ApiError
  | ApiError.http st m => ApiError.http st m
  | ApiError.sys _ => ApiError.http 500 "Audio processing failed. Please try again."

/-- The whole POST handler: make the recording directory, run the body,
and on any failure remove the entire recording directory and rethrow. -/
def processPOST (env : ProcEnv) (req : ProcessInput) (id : String) (now : Int)
    (s : ServerState) : PostResult :=
  let b := processBody env req id now (addRecordingDir s id)
  match b.res with
  | Except.ok v => ⟨Except.ok v, b.state, b.tr⟩
  | Except.error e => ⟨Except.error (errorToResponse e), removeRecordingDir b.state id, b.tr⟩

/-- The recording id is not an existing directory (ids are freshly
generated UUIDs). -/
def freshId (s : ServerState) (id : String) : Prop :=
  ∀ d ∈ s.dirs, d.1 ≠ id

/-! ## Spec-side renderers for the mixing parameters (claim C4).
These are built from the parameter values the specification names, not
from the handler's code, and are compared against the code's strings. -/

/-- Sidechain compressor parameters as the specification states them:
linear threshold in hundredths, ratio, attack and release in
milliseconds. -/
structure SidechainSpec where
  thresholdHundredths : Nat
  ratioVal : Nat
  attackMs : Nat
  releaseMs : Nat

/-- Render a value given in hundredths as a decimal literal below 1. -/
def hundredthsLit (n : Nat) : String :=
  "0." ++ (if n < 10 then "0" ++ toString n else toString n)

/-- Render a value given in tenths as a decimal literal below 1. -/
def tenthsLit (n : Nat) : String :=
  "0." ++ toString n

def renderSidechainFilter (p : SidechainSpec) : String :=
  "sidechaincompress=threshold=" ++ hundredthsLit p.thresholdHundredths ++
    ":ratio=" ++ toString p.ratioVal ++ ":attack=" ++ toString p.attackMs ++
    ":release=" ++ toString p.releaseMs

/-- Mixing weights as the specification states them: system weight in
tenths, mic weight in whole units, duration = longest input. -/
structure MixWeightsSpec where
  systemTenths : Nat
  micUnits : Nat

def renderAmixLongest (w : MixWeightsSpec) : String :=
  "amix=inputs=2:duration=longest:weights=" ++ tenthsLit w.systemTenths ++ " " ++
    toString w.micUnits

/-- Threshold 0.02 linear, ratio 4:1, attack 50 ms, release 500 ms. -/
def specSidechain : SidechainSpec := ⟨2, 4, 50, 500⟩

/-- System weight 0.7, mic weight 1.0. -/
def specWeights : MixWeightsSpec := ⟨7, 1⟩

/-- A generic two-input ffmpeg mix command over explicitly named raw
inputs, a filter graph, a codec and an output path. -/
def renderTwoInputMixCmd (in1 in2 filterGraph codec out : String) : String :=
  "ffmpeg -i \"" ++ in1 ++ "\" -i \"" ++ in2 ++
    "\" -filter_complex \"" ++ filterGraph ++
    "\" -map \"[out]\" -ac 2 -ar 48000 -c:a " ++ codec ++
    " \"" ++ out ++ "\" -y"

/-! ## Byte-range streaming handler
(src/routes/api/recordings/[id]/[track]/download, streaming variant) -/

/-- Accumulate a digit run into a number, as parseInt does on a digit
string. -/
def digitsVal (cs : List Char) : Nat :=
  cs.foldl (fun a c => a * 10 + (c.toNat - 48)) 0

/-- Try to recognise `bytes=<digits>-<digits*>` starting exactly at the
head of the character list; on success return the two capture groups
(the second as `none` when the digit run after the dash is empty). -/
def matchRangeAt (cs : List Char) : Option (Nat × Option Nat) :=
  if cs.take 6 = "bytes=".data then
    let rest := cs.drop 6
    let ds := rest.takeWhile Char.isDigit
    let rest2 := rest.drop ds.length
    if ds.isEmpty then none
    else
      match rest2 with
      | [] => none
      | c :: tail =>
        if c = '-' then
          let ds2 := tail.takeWhile Char.isDigit
          some (digitsVal ds, if ds2.isEmpty then none else some (digitsVal ds2))
        else none
  else none

/-- Leftmost regex search: scan every start position left to right. -/
def findRangeAux : List Char → Option (Nat × Option Nat)
  | [] => none
  | c :: rest =>
    match matchRangeAt (c :: rest) with
    | some r => some r
    | none => findRangeAux rest

/-- Model of `rangeHeader.match(/bytes=(\d+)-(\d*)/)` followed by the
parseInt calls on the capture groups. -/
def parseRangeHeader (h : String) : Option (Nat × Option Nat) :=
  findRangeAux h.data

/-- The end byte the handler uses: the second capture group when present,
otherwise `fileSize - 1`. -/
def requestedEnd (endOpt : Option Nat) (fileSize : Nat) : Nat :=
  match endOpt with
  | some e => e
  | none => fileSize - 1

/-- Response of the streaming GET handler, headers modelled as fields. -/
structure StreamResponse where
  status : Nat
  body : List Nat
  contentType : Option String
  contentLength : Option String
  contentRange : Option String
  acceptRanges : Option String
deriving DecidableEq

/-- The streaming GET handler from the point where the track file exists:
serve a partial response when the Range header parses, a 416 when the
requested start is past the end of file, the whole file otherwise. -/
def streamTrackGET (fileBytes : List Nat) (fmt : OutputFormat)
    (rangeHeader : Option String) : StreamResponse :=
  let fileSize := fileBytes.length
  let full : StreamResponse :=
    ⟨200, fileBytes, some (getContentType fmt), some (toString fileSize), none, some "bytes"⟩
  match rangeHeader with
  | none => full
  | some h =>
    match parseRangeHeader h with
    | none => full
    | some (start, endOpt) =>
      let e := requestedEnd endOpt fileSize
      if fileSize ≤ start then
        ⟨416, [], none, none, some ("bytes */" ++ toString fileSize), none⟩
      else
        let chunk := (fileBytes.drop start).take (e + 1 - start)
        ⟨206, chunk, some (getContentType fmt), some (toString chunk.length),
         some ("bytes " ++ toString start ++ "-" ++ toString e ++ "/" ++ toString fileSize),
         some "bytes"⟩

/-! ## Preview effects chain (AudioRecorder component, rebuildPreviewChain) -/

/-- The audio nodes the preview graph allocates, plus source and
destination. -/
inductive ANode
  | source
  | highpass
  | noiseGate
  | boost
  | compressor
  | reverbInput
  | reverbOutput
  | reverbDry
  | reverbWet
  | reverbFilter
  | reverbDelay (i : Nat)
  | reverbGain (i : Nat)
  | destination
deriving DecidableEq

/-- Effect configuration as used by `rebuildPreviewChain`. -/
structure MicEffects where
  highpass : Bool
  noiseGate : Bool
  compressor : Bool
  echo : Bool
  boost : ℚ
deriving DecidableEq

/-- Result of a rebuild: the connections made (in order) and the gain
values assigned (in order). -/
structure ChainBuild where
  connections : List (ANode × ANode)
  gainSets : List (ANode × ℚ)
deriving DecidableEq

/-- The reverb wiring made in the echo branch: dry path, wet input, the
eight delay taps, the low-pass and the wet gain into the destination. -/
def reverbConnections (cur : ANode) : List (ANode × ANode) :=
  [(cur, ANode.reverbDry), (ANode.reverbDry, ANode.destination), (cur, ANode.reverbInput)] ++
    (List.range 8).flatMap (fun i =>
      [(ANode.reverbInput, ANode.reverbDelay i), (ANode.reverbDelay i, ANode.reverbGain i),
       (ANode.reverbGain i, ANode.reverbOutput)]) ++
    [(ANode.reverbOutput, ANode.reverbFilter), (ANode.reverbFilter, ANode.reverbWet),
     (ANode.reverbWet, ANode.destination)]

/-- `rebuildPreviewChain`: after disconnecting everything, walk the fixed
chain connecting only the enabled stages, then either wire the reverb
send network or connect the current node straight to the destination. -/
def rebuildPreviewChain (e : MicEffects) : ChainBuild :=
  let p0 : List (ANode × ANode) × ANode := ([], ANode.source)
  let p1 := if e.highpass then (p0.1 ++ [(p0.2, ANode.highpass)], ANode.highpass) else p0
  let p2 := if e.noiseGate then (p1.1 ++ [(p1.2, ANode.noiseGate)], ANode.noiseGate) else p1
  let g2 : List (ANode × ℚ) := []
  let p3 := if e.boost > 1.0 then (p2.1 ++ [(p2.2, ANode.boost)], ANode.boost) else p2
  let g3 := if e.boost > 1.0 then g2 ++ [(ANode.boost, e.boost)] else g2
  let p4 := if e.compressor then (p3.1 ++ [(p3.2, ANode.compressor)], ANode.compressor) else p3
  if e.echo then
    ⟨p4.1 ++ reverbConnections p4.2,
     g3 ++ [(ANode.reverbDry, (0.7 : ℚ)), (ANode.reverbWet, (0.5 : ℚ))]⟩
  else
    ⟨p4.1 ++ [(p4.2, ANode.destination)], g3⟩

/-! ## Concrete sample data used by witnesses -/

def sampleTracks : Tracks := ⟨none, some "system.mp3", none⟩

def recA : Recording := ⟨"a", 0, 1000, 5, false, true, OutputFormat.mp3, sampleTracks⟩

def recB : Recording := ⟨"b", 0, 2000, 5, false, true, OutputFormat.mp3, sampleTracks⟩

def boundaryState : CatalogState := ⟨[recA], ["a"], true⟩

def sweepState : CatalogState := ⟨[recA, recB], ["a", "b", "orphan"], true⟩

def sampleParams : CreateParams := ⟨"z", 1, true, true, OutputFormat.aac, sampleTracks⟩

def emptyServer : ServerState := ⟨[], []⟩

def req0 : ProcessInput := ⟨some [1], some [2], false, OutputFormat.mp3, 3⟩

def reqNoSys : ProcessInput := ⟨none, some [2], true, OutputFormat.opus, 3⟩

def envMixFail : ProcEnv := ⟨true, true, true, true, true, false, true, true⟩

def envAllOk : ProcEnv := ⟨true, true, true, true, true, true, true, true⟩

/-! ## Lemmas about the retention sweep -/

lemma foldl_deleteRecording_index (ids : List String) (s : CatalogState) :
    (ids.foldl (fun st i => (deleteRecording st i).1) s).index =
      ids.foldl deleteIndexStep s.index := by
  induction ids generalizing s with
  | nil => rfl
  | cons i is ih =>
    simp only [List.foldl_cons]
    exact ih ⟨deleteIndexStep s.index i, deleteDirsStep s.dirs s.index i, s.indexLoadOk⟩

lemma cleanup_index_eq (s : CatalogState) (now : Int) :
    (cleanupExpiredRecordings s now).1.index =
      (((loadRecordingsInternal s).1.filter (fun r => decide (r.expiresAt < now))).map
        (fun r => r.id)).foldl deleteIndexStep s.index := by
  simp only [cleanupExpiredRecordings]
  split <;> simp [foldl_deleteRecording_index]

lemma deleteIndexStep_sublist (idx : List Recording) (i : String) :
    (deleteIndexStep idx i).Sublist idx := by
  unfold deleteIndexStep
  split
  · exact List.eraseP_sublist idx
  · exact List.Sublist.refl idx

lemma foldl_deleteIndexStep_sublist (ids : List String) (idx : List Recording) :
    (ids.foldl deleteIndexStep idx).Sublist idx := by
  induction ids generalizing idx with
  | nil => exact List.Sublist.refl idx
  | cons i is ih =>
    simp only [List.foldl_cons]
    exact (ih (deleteIndexStep idx i)).trans (deleteIndexStep_sublist idx i)

lemma deleteIndexStep_cons_ne (r : Recording) (m : List Recording) (i : String)
    (h : r.id ≠ i) : deleteIndexStep (r :: m) i = r :: deleteIndexStep m i := by
  have hb : (r.id == i) = false := by simpa using h
  by_cases hm : m.any (fun x => x.id == i)
  · simp [deleteIndexStep, List.any_cons, hb, hm, List.eraseP_cons_of_neg]
  · simp [deleteIndexStep, List.any_cons, hb, hm]

lemma foldl_deleteIndexStep_notmem (L : List String) (r : Recording) (m : List Recording)
    (h : r.id ∉ L) : L.foldl deleteIndexStep (r :: m) = r :: L.foldl deleteIndexStep m := by
  induction L generalizing m with
  | nil => rfl
  | cons i is ih =>
    have h1 : r.id ≠ i := fun he => h (by simp [he])
    have h2 : r.id ∉ is := fun he => h (by simp [he])
    simp only [List.foldl_cons]
    rw [deleteIndexStep_cons_ne r m i h1]
    exact ih (deleteIndexStep m i) h2

lemma sweep_filter (now : Int) (idx : List Recording)
    (hnd : (idx.map (fun r => r.id)).Nodup) :
    ((idx.filter (fun r => decide (r.expiresAt < now))).map (fun r => r.id)).foldl
        deleteIndexStep idx =
      idx.filter (fun r => decide (¬ r.expiresAt < now)) := by
  induction idx with
  | nil => rfl
  | cons r rest ih =>
    rw [List.map_cons] at hnd
    have hid : r.id ∉ rest.map (fun x => x.id) := (List.nodup_cons.mp hnd).1
    have hnd' : (rest.map (fun x => x.id)).Nodup := (List.nodup_cons.mp hnd).2
    by_cases hp : r.expiresAt < now
    · have hfc : (r :: rest).filter (fun x => decide (x.expiresAt < now)) =
          r :: rest.filter (fun x => decide (x.expiresAt < now)) := by simp [hp]
      have hstep : deleteIndexStep (r :: rest) r.id = rest := by
        simp [deleteIndexStep, List.any_cons, List.eraseP_cons_of_pos]
      rw [hfc]
      simp only [List.map_cons, List.foldl_cons, hstep]
      rw [ih hnd']
      simp [hp]
    · have hfc : (r :: rest).filter (fun x => decide (x.expiresAt < now)) =
          rest.filter (fun x => decide (x.expiresAt < now)) := by simp [hp]
      have hsub : (rest.filter (fun x => decide (x.expiresAt < now))).map (fun x => x.id) ⊆
          rest.map (fun x => x.id) :=
        List.map_subset _ (List.filter_sublist rest).subset
      have hnm : r.id ∉ (rest.filter (fun x => decide (x.expiresAt < now))).map
          (fun x => x.id) := fun hin => hid (hsub hin)
      rw [hfc, foldl_deleteIndexStep_notmem _ r rest hnm, ih hnd']
      simp [hp, List.filter_cons, Int.not_lt.mp hp]

/-! ## Claim theorems: retention sweep and catalog -/

/-- C1 (counterexample): an index entry whose `expiresAt` equals the
sweep time satisfies the claimed deletion condition `expiresAt <= now`,
yet the sweep leaves it in the index — the inclusive boundary of the
claim does not hold on the code. -/
theorem inclusive_expiry_counterexample :
    recA.expiresAt ≤ 1000 ∧ recA ∈ (cleanupExpiredRecordings boundaryState 1000).1.index := by
  decide

/-- C1 (amended): a retention sweep over a successfully loaded index with
distinct ids deletes an entry exactly when its `expiresAt` is strictly
less than the sweep time; an entry with `expiresAt` equal to `now` is
retained. -/
theorem sweep_deletes_iff_strictly_expired (s : CatalogState) (now : Int) (rec : Recording)
    (hload : s.indexLoadOk = true)
    (hnd : (s.index.map (fun r => r.id)).Nodup)
    (hmem : rec ∈ s.index) :
    rec ∉ (cleanupExpiredRecordings s now).1.index ↔ rec.expiresAt < now := by
  have hli : loadRecordingsInternal s = (s.index, true) := by
    simp [loadRecordingsInternal, hload]
  rw [cleanup_index_eq, hli]
  simp only
  rw [sweep_filter now s.index hnd]
  simp [List.mem_filter, hmem, not_not]

/-- Witness for the amended C1 theorem at a concrete sweep: the expired
entry is gone, the unexpired one remains. -/
theorem sweep_deletes_iff_strictly_expired_witness :
    recA ∉ (cleanupExpiredRecordings sweepState 1500).1.index ∧
    recB ∈ (cleanupExpiredRecordings sweepState 1500).1.index := by
  constructor
  · exact (sweep_deletes_iff_strictly_expired sweepState 1500 recA rfl (by decide)
      (by decide)).mpr (by decide)
  · by_contra hn
    exact absurd ((sweep_deletes_iff_strictly_expired sweepState 1500 recB rfl (by decide)
      (by decide)).mp hn) (by decide)

/-- C2: when loading the index file fails (the empty-index fallback is
taken), the sweep removes no directory at all: the directory tree is
unchanged on that pass. -/
theorem corruptedIndex_skips_orphan_scan (s : CatalogState) (now : Int)
    (h : s.indexLoadOk = false) :
    (cleanupExpiredRecordings s now).1.dirs = s.dirs := by
  simp [cleanupExpiredRecordings, loadRecordingsInternal, h]

/-- Witness for C2: a state with an expired entry and an orphan directory
but an unreadable index keeps every directory. -/
theorem corruptedIndex_skips_orphan_scan_witness :
    (cleanupExpiredRecordings ⟨[recA], ["a", "orphan"], false⟩ 5000).1.dirs =
      ["a", "orphan"] := by
  exact corruptedIndex_skips_orphan_scan ⟨[recA], ["a", "orphan"], false⟩ 5000 rfl

/-- C9: `createRecording` stamps `createdAt` with the creation instant
and `expiresAt` exactly 7 days (604800000 ms) later, appending the entry
unchanged to the index; the deletion and sweep operations only ever
remove entries, so no operation rewrites the timestamps of an entry that
still exists. -/
theorem createRecording_expiry_and_immutability :
    (∀ (now : Int) (p : CreateParams) (idx : List Recording),
      (createRecording now p idx).1.createdAt = now ∧
      (createRecording now p idx).1.expiresAt =
        (createRecording now p idx).1.createdAt + 604800000 ∧
      (createRecording now p idx).2 = idx ++ [(createRecording now p idx).1]) ∧
    (∀ (idx : List Recording) (i : String) (r : Recording),
      r ∈ deleteIndexStep idx i → r ∈ idx) ∧
    (∀ (s : CatalogState) (now : Int) (r : Recording),
      r ∈ (cleanupExpiredRecordings s now).1.index → r ∈ s.index) := by
  refine ⟨?_, ?_, ?_⟩
  · intro now p idx
    refine ⟨rfl, ?_, rfl⟩
    show now + RETENTION_MS = now + 604800000
    norm_num [RETENTION_MS]
  · intro idx i r hr
    exact (deleteIndexStep_sublist idx i).subset hr
  · intro s now r hr
    rw [cleanup_index_eq] at hr
    exact (foldl_deleteIndexStep_sublist _ s.index).subset hr

/-- Witness for C9 at concrete inputs. -/
theorem createRecording_expiry_and_immutability_witness :
    (createRecording 100 sampleParams []).1.expiresAt =
      (createRecording 100 sampleParams []).1.createdAt + 604800000 ∧
    recA ∈ ([recA, recB] : List Recording) := by
  refine ⟨(createRecording_expiry_and_immutability.1 100 sampleParams []).2.1, ?_⟩
  exact createRecording_expiry_and_immutability.2.1 [recA, recB] "b" recA (by decide)

/-! ## Claim theorems: mixing parameters, preview chain, range requests -/

set_option maxRecDepth 100000 in
/-- C4: the mixed track is produced from the two raw uploads; without
ducking the filter graph is an `amix` with system weight 0.7, mic weight
1.0 and duration equal to the longest input; with ducking the mic
side-chain-compresses the system signal with linear threshold 0.02,
ratio 4:1, attack 50 ms, release 500 ms, and the ducked system is then
mixed with the unmodified mic at the same 0.7/1.0 weights. -/
theorem mixedTrack_matches_spec_params :
    (duckFilterComplex =
      "[1:a]asplit=2[sc][mic];[0:a][sc]" ++ renderSidechainFilter specSidechain ++
        "[ducked];[ducked][mic]" ++ renderAmixLongest specWeights ++ "[out]") ∧
    (plainMixFilterComplex = "[0:a][1:a]" ++ renderAmixLongest specWeights ++ "[out]") ∧
    (∀ (id : String) (fmt : OutputFormat) (duck : Bool),
      mixedEncodeCmd id fmt duck =
        renderTwoInputMixCmd (systemInputPath id) (micInputPath id)
          (if duck then duckFilterComplex else plainMixFilterComplex)
          (FORMAT_CODECS fmt) (getTrackPath id "mixed" fmt)) := by
  refine ⟨by decide, by decide, ?_⟩
  intro id fmt duck
  rfl

/-- C6: with every toggle off and boost exactly 1.0, rebuilding the
preview chain makes a single connection from the source to the
destination, and assigns no gain value at all. -/
theorem previewChain_dry_passthrough :
    rebuildPreviewChain ⟨false, false, false, false, 1⟩ =
      ⟨[(ANode.source, ANode.destination)], []⟩ := by
  norm_num [rebuildPreviewChain]

/-- C8: whenever the Range header parses as `bytes=start-[end]`, the
handler answers 416 with `Content-Range: bytes */size` when the start is
at or past the file size, and otherwise 206 with
`Content-Range: bytes start-end/size` carrying the requested bytes. -/
theorem rangeRequest_byteRange (bytes : List Nat) (fmt : OutputFormat) (h : String)
    (start : Nat) (endOpt : Option Nat)
    (hp : parseRangeHeader h = some (start, endOpt)) :
    (bytes.length ≤ start →
      (streamTrackGET bytes fmt (some h)).status = 416 ∧
      (streamTrackGET bytes fmt (some h)).contentRange =
        some ("bytes */" ++ toString bytes.length)) ∧
    (start < bytes.length →
      (streamTrackGET bytes fmt (some h)).status = 206 ∧
      (streamTrackGET bytes fmt (some h)).contentRange =
        some ("bytes " ++ toString start ++ "-" ++
          toString (requestedEnd endOpt bytes.length) ++ "/" ++ toString bytes.length) ∧
      (streamTrackGET bytes fmt (some h)).body =
        (bytes.drop start).take (requestedEnd endOpt bytes.length + 1 - start)) := by
  constructor
  · intro hge
    simp [streamTrackGET, hp, hge]
  · intro hlt
    have hn : ¬ bytes.length ≤ start := Nat.not_le.mpr hlt
    simp [streamTrackGET, hp, hn]

/-- Witness for C8: a three-byte file served at `bytes=1-1` yields a 206
with exactly the second byte, and `bytes=5-` yields a 416. -/
theorem rangeRequest_byteRange_witness :
    (streamTrackGET [10, 20, 30] OutputFormat.mp3 (some "bytes=1-1")).status = 206 ∧
    (streamTrackGET [10, 20, 30] OutputFormat.mp3 (some "bytes=1-1")).body = [20] ∧
    (streamTrackGET [10, 20, 30] OutputFormat.mp3 (some "bytes=5-")).status = 416 := by
  have h1 := rangeRequest_byteRange [10, 20, 30] OutputFormat.mp3 "bytes=1-1" 1 (some 1)
    (by decide)
  have h2 := rangeRequest_byteRange [10, 20, 30] OutputFormat.mp3 "bytes=5-" 5 none
    (by decide)
  refine ⟨(h1.2 (by decide)).1, ?_, (h2.1 (by decide)).1⟩
  have hb := (h1.2 (by decide)).2.2
  simpa using hb

/-- C10: a present Range header on which the regex search finds no
`bytes=<digits>-<digits*>` match is ignored: the handler serves the
whole file with status 200 and an Accept-Ranges header, never a 206 or a
416. -/
theorem malformedRange_servesFullFile (bytes : List Nat) (fmt : OutputFormat) (h : String)
    (hp : parseRangeHeader h = none) :
    streamTrackGET bytes fmt (some h) =
      ⟨200, bytes, some (getContentType fmt), some (toString bytes.length), none,
       some "bytes"⟩ := by
  simp [streamTrackGET, hp]

/-- Witness for C10: the suffix range `bytes=-500` does not match the
regex and the whole file comes back with a 200. -/
theorem malformedRange_servesFullFile_witness :
    streamTrackGET [1, 2, 3] OutputFormat.opus (some "bytes=-500") =
      ⟨200, [1, 2, 3], some "audio/webm", some "3", none, some "bytes"⟩ := by
  exact malformedRange_servesFullFile [1, 2, 3] OutputFormat.opus "bytes=-500" (by decide)

/-! ## Lemmas about the process endpoint state -/

lemma addFileDirs_fresh (ds : List (String × List String)) (id f : String)
    (h : ∀ d ∈ ds, d.1 ≠ id) : addFileDirs ds id f = ds := by
  induction ds with
  | nil => rfl
  | cons d ds ih =>
    have hd : ¬ ((d.1 == id) = true) := by simpa using h d (by simp)
    have ih2 := ih (fun x hx => h x (by simp [hx]))
    simp only [addFileDirs] at ih2 ⊢
    simp only [List.map_cons]
    rw [if_neg hd, ih2]

lemma removeInputDirs_fresh (ds : List (String × List String)) (id : String)
    (h : ∀ d ∈ ds, d.1 ≠ id) : removeInputDirs ds id = ds := by
  induction ds with
  | nil => rfl
  | cons d ds ih =>
    have hd : ¬ ((d.1 == id) = true) := by simpa using h d (by simp)
    have ih2 := ih (fun x hx => h x (by simp [hx]))
    simp only [removeInputDirs] at ih2 ⊢
    simp only [List.map_cons]
    rw [if_neg hd, ih2]

lemma addTrackFile_shape (ix : List Recording) (id f : String) (fs : List String)
    (ds : List (String × List String)) (h : ∀ d ∈ ds, d.1 ≠ id) :
    addTrackFile ⟨ix, (id, fs) :: ds⟩ id f = ⟨ix, (id, fs ++ [f]) :: ds⟩ := by
  have ih2 := addFileDirs_fresh ds id f h
  simp only [addFileDirs] at ih2
  simp only [addTrackFile, addFileDirs, List.map_cons]
  rw [if_pos (by simp : (id == id) = true), ih2]

lemma removeInputFiles_shape (ix : List Recording) (id : String) (fs : List String)
    (ds : List (String × List String)) (h : ∀ d ∈ ds, d.1 ≠ id) :
    removeInputFiles ⟨ix, (id, fs) :: ds⟩ id =
      ⟨ix, (id, fs.filter (fun f => decide (¬ f ∈ inputFileNames))) :: ds⟩ := by
  have ih2 := removeInputDirs_fresh ds id h
  simp only [removeInputDirs] at ih2
  simp only [removeInputFiles, removeInputDirs, List.map_cons]
  rw [if_pos (by simp : (id == id) = true), ih2]

lemma removeDirDirs_fresh (ds : List (String × List String)) (id : String)
    (h : ∀ d ∈ ds, d.1 ≠ id) : removeDirDirs ds id = ds := by
  apply List.filter_eq_self.mpr
  intro d hd
  simpa using h d hd

lemma removeRecordingDir_shape (ix : List Recording) (id : String) (fs : List String)
    (ds : List (String × List String)) (h : ∀ d ∈ ds, d.1 ≠ id) :
    removeRecordingDir ⟨ix, (id, fs) :: ds⟩ id = ⟨ix, ds⟩ := by
  have h2 := removeDirDirs_fresh ds id h
  simp only [removeRecordingDir, removeDirDirs] at h2 ⊢
  simp [List.filter_cons, h2]

lemma stageFinish_shape (env : ProcEnv) (req : ProcessInput) (id : String) (now : Int)
    (ix : List Recording) (fs : List String) (ds : List (String × List String)) (tr : ProcTrace)
    (hfr : ∀ d ∈ ds, d.1 ≠ id) :
    ∃ fs2,
      (stageFinish env req id now ⟨ix, (id, fs) :: ds⟩ tr).state.dirs = (id, fs2) :: ds ∧
      (exceptIsOk (stageFinish env req id now ⟨ix, (id, fs) :: ds⟩ tr).res = false →
        (stageFinish env req id now ⟨ix, (id, fs) :: ds⟩ tr).state.index = ix) := by
  cases hrm : env.rmInputsOk with
  | false =>
    refine ⟨fs, ?_, ?_⟩ <;> simp [stageFinish, hrm]
  | true =>
    cases hcr : env.createOk with
    | false =>
      refine ⟨fs.filter (fun f => decide (¬ f ∈ inputFileNames)), ?_, ?_⟩ <;>
        simp [stageFinish, hrm, hcr, removeInputFiles_shape ix id fs ds hfr]
    | true =>
      refine ⟨fs.filter (fun f => decide (¬ f ∈ inputFileNames)), ?_, ?_⟩
      · simp [stageFinish, hrm, hcr, removeInputFiles_shape ix id fs ds hfr]
      · simp [stageFinish, hrm, hcr, exceptIsOk]

lemma stageAfterWrites_shape (env : ProcEnv) (req : ProcessInput) (id : String) (now : Int)
    (ix : List Recording) (fs : List String) (ds : List (String × List String))
    (hfr : ∀ d ∈ ds, d.1 ≠ id) :
    ∃ fs2,
      (stageAfterWrites env req id now ⟨ix, (id, fs) :: ds⟩).state.dirs = (id, fs2) :: ds ∧
      (exceptIsOk (stageAfterWrites env req id now ⟨ix, (id, fs) :: ds⟩).res = false →
        (stageAfterWrites env req id now ⟨ix, (id, fs) :: ds⟩).state.index = ix) := by
  cases hes : env.encodeSystemOk with
  | false => refine ⟨fs, ?_, ?_⟩ <;> simp [stageAfterWrites, hes]
  | true =>
    have ha1 := addTrackFile_shape ix id ("system." ++ extOf req.outputFormat) fs ds hfr
    cases hm : req.micAudio with
    | none =>
      obtain ⟨fs2, h1, h2⟩ := stageFinish_shape env req id now ix
        (fs ++ ["system." ++ extOf req.outputFormat]) ds
        ⟨some (systemEncodeCmd id req.outputFormat), none, none⟩ hfr
      refine ⟨fs2, ?_, ?_⟩
      · simpa [stageAfterWrites, hes, hm, ha1] using h1
      · simpa [stageAfterWrites, hes, hm, ha1] using h2
    | some mbytes =>
      have ha2 := addTrackFile_shape ix id ("mic." ++ extOf req.outputFormat)
        (fs ++ ["system." ++ extOf req.outputFormat]) ds hfr
      cases hemic : env.encodeMicOk with
      | false =>
        refine ⟨fs ++ ["system." ++ extOf req.outputFormat], ?_, ?_⟩ <;>
          simp [stageAfterWrites, hes, hm, hemic, ha1]
      | true =>
        have ha3 := addTrackFile_shape ix id ("mixed." ++ extOf req.outputFormat)
          (fs ++ ["system." ++ extOf req.outputFormat, "mic." ++ extOf req.outputFormat]) ds hfr
        cases hemix : env.encodeMixedOk with
        | false =>
          refine ⟨fs ++ ["system." ++ extOf req.outputFormat,
            "mic." ++ extOf req.outputFormat], ?_, ?_⟩ <;>
            simp [stageAfterWrites, hes, hm, hemic, hemix, ha1, ha2]
        | true =>
          obtain ⟨fs2, h1, h2⟩ := stageFinish_shape env req id now ix
            (fs ++ ["system." ++ extOf req.outputFormat, "mic." ++ extOf req.outputFormat,
              "mixed." ++ extOf req.outputFormat]) ds
            ⟨some (systemEncodeCmd id req.outputFormat), some (micEncodeCmd id req.outputFormat),
             some (mixedEncodeCmd id req.outputFormat req.duckSystemAudio)⟩ hfr
          refine ⟨fs2, ?_, ?_⟩
          · simpa [stageAfterWrites, hes, hm, hemic, hemix, ha1, ha2, ha3] using h1
          · simpa [stageAfterWrites, hes, hm, hemic, hemix, ha1, ha2, ha3] using h2

lemma processBody_shape (env : ProcEnv) (req : ProcessInput) (id : String) (now : Int)
    (ix : List Recording) (ds : List (String × List String))
    (hfr : ∀ d ∈ ds, d.1 ≠ id) :
    ∃ fs2,
      (processBody env req id now ⟨ix, (id, []) :: ds⟩).state.dirs = (id, fs2) :: ds ∧
      (exceptIsOk (processBody env req id now ⟨ix, (id, []) :: ds⟩).res = false →
        (processBody env req id now ⟨ix, (id, []) :: ds⟩).state.index = ix) := by
  cases hf : env.formDataOk with
  | false => refine ⟨[], ?_, ?_⟩ <;> simp [processBody, hf]
  | true =>
    cases hs : req.systemAudio with
    | none => refine ⟨[], ?_, ?_⟩ <;> simp [processBody, hf, hs]
    | some sbytes =>
      cases hw : env.writeSystemOk with
      | false => refine ⟨[], ?_, ?_⟩ <;> simp [processBody, hf, hs, hw]
      | true =>
        have ha1 := addTrackFile_shape ix id "system_input.webm" [] ds hfr
        cases hm : req.micAudio with
        | none =>
          obtain ⟨fs2, h1, h2⟩ := stageAfterWrites_shape env req id now ix
            ["system_input.webm"] ds hfr
          refine ⟨fs2, ?_, ?_⟩
          · simpa [processBody, hf, hs, hw, hm, ha1] using h1
          · simpa [processBody, hf, hs, hw, hm, ha1] using h2
        | some mbytes =>
          cases hwm : env.writeMicOk with
          | false =>
            refine ⟨["system_input.webm"], ?_, ?_⟩ <;>
              simp [processBody, hf, hs, hw, hm, hwm, ha1]
          | true =>
            have ha2 := addTrackFile_shape ix id "mic_input.webm" ["system_input.webm"] ds hfr
            obtain ⟨fs2, h1, h2⟩ := stageAfterWrites_shape env req id now ix
              ["system_input.webm", "mic_input.webm"] ds hfr
            refine ⟨fs2, ?_, ?_⟩
            · simpa [processBody, hf, hs, hw, hm, hwm, ha1, ha2] using h1
            · simpa [processBody, hf, hs, hw, hm, hwm, ha1, ha2] using h2

lemma stageFinish_tr (env : ProcEnv) (req : ProcessInput) (id : String) (now : Int)
    (s : ServerState) (tr : ProcTrace) : (stageFinish env req id now s tr).tr = tr := by
  cases hrm : env.rmInputsOk <;> cases hcr : env.createOk <;> simp [stageFinish, hrm, hcr]

lemma stageAfterWrites_systemCmd (env : ProcEnv) (req : ProcessInput) (id : String) (now : Int)
    (s : ServerState) :
    (stageAfterWrites env req id now s).tr.systemCmd =
      some (systemEncodeCmd id req.outputFormat) := by
  cases hes : env.encodeSystemOk <;> cases hm : req.micAudio <;>
    cases hemic : env.encodeMicOk <;> cases hemix : env.encodeMixedOk <;>
      simp [stageAfterWrites, hes, hm, hemic, hemix, stageFinish_tr]

lemma stageAfterWrites_micCmd (env : ProcEnv) (req : ProcessInput) (id : String) (now : Int)
    (s : ServerState) :
    (stageAfterWrites env req id now s).tr.micCmd =
      (if env.encodeSystemOk && req.micAudio.isSome then some (micEncodeCmd id req.outputFormat)
       else none) := by
  cases hes : env.encodeSystemOk <;> cases hm : req.micAudio <;>
    cases hemic : env.encodeMicOk <;> cases hemix : env.encodeMixedOk <;>
      simp [stageAfterWrites, hes, hm, hemic, hemix, stageFinish_tr]

lemma processBody_systemCmd (env : ProcEnv) (req : ProcessInput) (id : String) (now : Int)
    (s : ServerState) :
    (processBody env req id now s).tr.systemCmd =
      (if env.formDataOk && req.systemAudio.isSome && env.writeSystemOk &&
          (!(req.micAudio.isSome) || env.writeMicOk)
       then some (systemEncodeCmd id req.outputFormat) else none) := by
  cases hf : env.formDataOk <;> cases hs : req.systemAudio <;> cases hw : env.writeSystemOk <;>
    cases hm : req.micAudio <;> cases hwm : env.writeMicOk <;>
      simp [processBody, hf, hs, hw, hm, hwm, stageAfterWrites_systemCmd, emptyTrace]

lemma processBody_micCmd (env : ProcEnv) (req : ProcessInput) (id : String) (now : Int)
    (s : ServerState) :
    (processBody env req id now s).tr.micCmd =
      (if env.formDataOk && req.systemAudio.isSome && env.writeSystemOk &&
          (!(req.micAudio.isSome) || env.writeMicOk) && env.encodeSystemOk &&
          req.micAudio.isSome
       then some (micEncodeCmd id req.outputFormat) else none) := by
  cases hf : env.formDataOk <;> cases hs : req.systemAudio <;> cases hw : env.writeSystemOk <;>
    cases hm : req.micAudio <;> cases hwm : env.writeMicOk <;> cases hes : env.encodeSystemOk <;>
      simp [processBody, hf, hs, hw, hm, hwm, hes, stageAfterWrites_micCmd, emptyTrace]

lemma processPOST_tr (env : ProcEnv) (req : ProcessInput) (id : String) (now : Int)
    (s : ServerState) :
    (processPOST env req id now s).tr =
      (processBody env req id now (addRecordingDir s id)).tr := by
  cases hres : (processBody env req id now (addRecordingDir s id)).res <;>
    simp [processPOST, hres]

/-! ## Claim theorems: process endpoint -/

/-- C3: whenever any stage of the process request fails — the handler
returns an error rather than a success — the whole per-recording artifact
directory is removed again and the persisted index is untouched, so the
final server state equals the initial one, and the error is the
handler's result (no retry). -/
theorem processing_failure_rolls_back (env : ProcEnv) (req : ProcessInput) (id : String)
    (now : Int) (s : ServerState) (hfr : freshId s id)
    (hfail : exceptIsOk (processPOST env req id now s).res = false) :
    (processPOST env req id now s).state = s := by
  obtain ⟨fs2, hdirs, hidx⟩ := processBody_shape env req id now s.index s.dirs hfr
  have hadd : addRecordingDir s id = ⟨s.index, (id, []) :: s.dirs⟩ := rfl
  rw [← hadd] at hdirs hidx
  cases hres : (processBody env req id now (addRecordingDir s id)).res with
  | ok v =>
    exfalso
    have hok : (processPOST env req id now s).res = Except.ok v := by
      simp [processPOST, hres]
    rw [hok] at hfail
    simp [exceptIsOk] at hfail
  | error e =>
    have hst : (processPOST env req id now s).state =
        removeRecordingDir (processBody env req id now (addRecordingDir s id)).state id := by
      simp [processPOST, hres]
    have hio : exceptIsOk (processBody env req id now (addRecordingDir s id)).res = false := by
      simp [hres, exceptIsOk]
    have hix := hidx hio
    have hbs : (processBody env req id now (addRecordingDir s id)).state =
        ⟨s.index, (id, fs2) :: s.dirs⟩ := by
      cases hbst : (processBody env req id now (addRecordingDir s id)).state with
      | mk ix2 ds2 =>
        rw [hbst] at hdirs hix
        simp only at hdirs hix
        simp [hdirs, hix]
    rw [hst, hbs, removeRecordingDir_shape s.index id fs2 s.dirs hfr]

/-- Witness for C3: a run whose mixed-track encode fails ends with the
initial state restored. -/
theorem processing_failure_rolls_back_witness :
    exceptIsOk (processPOST envMixFail req0 "r1" 0 emptyServer).res = false ∧
    (processPOST envMixFail req0 "r1" 0 emptyServer).state = emptyServer := by
  refine ⟨by rfl, processing_failure_rolls_back envMixFail req0 "r1" 0 emptyServer ?_ (by rfl)⟩
  intro d hd
  simp [emptyServer] at hd

/-- C5: two process requests identical except for the duckSystemAudio
flag run exactly the same standalone system-track and mic-track encode
commands; the flag reaches only the mixed-track filter graph. -/
theorem duck_flag_only_affects_mix (env : ProcEnv) (req : ProcessInput) (id : String)
    (now : Int) (s : ServerState) (d1 d2 : Bool) :
    (processPOST env { req with duckSystemAudio := d1 } id now s).tr.systemCmd =
      (processPOST env { req with duckSystemAudio := d2 } id now s).tr.systemCmd ∧
    (processPOST env { req with duckSystemAudio := d1 } id now s).tr.micCmd =
      (processPOST env { req with duckSystemAudio := d2 } id now s).tr.micCmd := by
  constructor <;> simp [processPOST_tr, processBody_systemCmd, processBody_micCmd]

/-- C7: a process request carrying no system-audio stream fails with the
400 input error, produces nothing (the state is exactly the initial one)
and invokes no encoder at all. -/
theorem missing_system_audio_rejected (env : ProcEnv) (req : ProcessInput) (id : String)
    (now : Int) (s : ServerState) (hfr : freshId s id)
    (hform : env.formDataOk = true) (hsys : req.systemAudio = none) :
    (processPOST env req id now s).res =
      Except.error (ApiError.http 400 "No system audio provided") ∧
    (processPOST env req id now s).state = s ∧
    (processPOST env req id now s).tr = emptyTrace := by
  have hbody : processBody env req id now (addRecordingDir s id) =
      ⟨Except.error (ApiError.http 400 "No system audio provided"), addRecordingDir s id,
       emptyTrace⟩ := by
    simp [processBody, hform, hsys]
  have h1 : (processPOST env req id now s).res =
      Except.error (ApiError.http 400 "No system audio provided") := by
    simp [processPOST, hbody, errorToResponse]
  have h2 : (processPOST env req id now s).state =
      removeRecordingDir (addRecordingDir s id) id := by
    simp [processPOST, hbody]
  have h3 : (processPOST env req id now s).tr = emptyTrace := by
    simp [processPOST, hbody]
  refine ⟨h1, ?_, h3⟩
  rw [h2]
  have hadd : addRecordingDir s id = ⟨s.index, (id, []) :: s.dirs⟩ := rfl
  rw [hadd, removeRecordingDir_shape s.index id [] s.dirs hfr]

/-- Witness for C7: the micless-system request is rejected with the 400
message and the empty server is unchanged. -/
theorem missing_system_audio_rejected_witness :
    (processPOST envAllOk reqNoSys "r2" 0 emptyServer).res =
      Except.error (ApiError.http 400 "No system audio provided") ∧
    (processPOST envAllOk reqNoSys "r2" 0 emptyServer).state = emptyServer := by
  have h := missing_system_audio_rejected envAllOk reqNoSys "r2" 0 emptyServer
    (by intro d hd; simp [emptyServer] at hd) rfl rfl
  exact ⟨h.1, h.2.1⟩
